import Mathlib

/-!
Shallow embedding of `src/script/draft_manager.py` (class `FantasyDraftManager`).

Conventions of the embedding:
* Spreadsheet cell values are modelled by `CellValue`: a cell is either empty
  (python `None` / pandas `NaN`), a string, or a number.  Numeric cells are
  modelled with `Int` (the source manipulates them only through `str`,
  `int(...)` and subtraction, so integer-valued data captures the logic).
* A worksheet (`Sheet`) is the list of its rows, row `1` of the worksheet being
  element `0` of the list; a workbook is an association list from sheet name to
  sheet, mirroring `openpyxl.Workbook`.
* Python dictionaries (`pending_deletions`, `my_squad_updates`, `slip_updates`)
  are modelled as insertion-ordered association lists, exactly the iteration
  order python guarantees.
* Python string helpers (`str.lower`, `str.strip`, `str.split`, `in`, `int()`)
  are re-implemented structurally over `List Char` so that every definition is
  executable and kernel-reducible.  (`int()` is modelled for optional sign plus
  decimal digits; exotic python forms such as underscores in literals are not
  used by the data this program manipulates.)
* External effects (reading and writing the `.xlsx` file) are represented by an
  `IOOutcome` parameter saying which of the two fallible calls
  (`openpyxl.load_workbook`, `workbook.save`) fails, and a `load` function
  standing for the external `pandas.read_excel` capability used by
  `_refresh_pandas_data`.
-/

/-- Value held by one spreadsheet cell. -/
inductive CellValue where
  | empty
  | str (s : String)
  | num (n : Int)
  deriving DecidableEq, Repr

/-- Python truthiness of a cell value (`if cell_value:` / `if current_cell.value:`):
`None`, the empty string and the number `0` are falsy. -/
def cellTruthy : CellValue → Bool
  | .empty => false
  | .str s => s ≠ ""
  | .num n => n ≠ 0

/-- Python `str()` applied to a cell value. -/
def pyStr : CellValue → String
  | .empty => "None"
  | .str s => s
  | .num n => toString n

/-- Rendering used by `df[col].astype(str)`: pandas renders a missing value as
the string `"nan"`. -/
def pandasStr : CellValue → String
  | .empty => "nan"
  | .str s => s
  | .num n => toString n

/-- Python `str.lower` on one character (ASCII, which is all this data uses). -/
def pyLowerChar (c : Char) : Char :=
  if 65 ≤ c.toNat ∧ c.toNat ≤ 90 then Char.ofNat (c.toNat + 32) else c

/-- Python `str.lower`. -/
def pyLower (s : String) : String := ⟨s.data.map pyLowerChar⟩

/-- Whitespace for python `str.strip`. -/
def pySpace (c : Char) : Bool :=
  c = ' ' || c = '\t' || c = '\n' || c = '\r' || c = '\x0b' || c = '\x0c'

/-- Python `str.strip`: drop leading and trailing whitespace. -/
def pyStrip (s : String) : String :=
  ⟨((s.data.dropWhile pySpace).reverse.dropWhile pySpace).reverse⟩

/-- Helper for substring search: does `pat` occur at the head of `hay`? -/
def leadMatch : List Char → List Char → Bool
  | [], _ => true
  | _ :: _, [] => false
  | p :: ps, h :: hs => p = h && leadMatch ps hs

/-- Helper for substring search over character lists. -/
def subOccurs (pat : List Char) : List Char → Bool
  | [] => leadMatch pat []
  | h :: t => leadMatch pat (h :: t) || subOccurs pat t

/-- Python `pat in hay` for strings (plain, unanchored substring containment;
this is what `str.contains(..., regex=False)` computes elementwise). -/
def strContains (hay pat : String) : Bool := subOccurs pat.data hay.data

/-- Python `str.split(sep)` for a one-character separator, over characters. -/
def splitCharList (sep : Char) : List Char → List (List Char)
  | [] => [[]]
  | c :: t =>
    if c = sep then [] :: splitCharList sep t
    else
      match splitCharList sep t with
      | [] => [[c]]
      | h :: r => (c :: h) :: r

/-- Python `s.split(sep)` for a one-character separator. -/
def pySplit (sep : Char) (s : String) : List String :=
  (splitCharList sep s.data).map String.mk

/-- Decimal digit value of a character, if it is a digit. -/
def digitVal? (c : Char) : Option Nat :=
  if 48 ≤ c.toNat ∧ c.toNat ≤ 57 then some (c.toNat - 48) else none

/-- Value of a non-empty all-digit character list. -/
def digitsVal? : List Char → Option Nat
  | [] => none
  | cs => cs.foldl (fun acc c => match acc, digitVal? c with
      | some n, some d => some (n * 10 + d)
      | _, _ => none) (some 0)

/-- Python `int(s)` for a string: optional surrounding whitespace, optional
sign, decimal digits; `none` models the `ValueError`. -/
def pyInt? (s : String) : Option Int :=
  match (pyStrip s).data with
  | '-' :: rest => (digitsVal? rest).map (fun n => -(n : Int))
  | '+' :: rest => (digitsVal? rest).map (fun n => (n : Int))
  | rest => (digitsVal? rest).map (fun n => (n : Int))

/-- Python `list.sort(reverse=True)` on a list of numbers: the list sorted in
descending order (for numbers the result is determined by the multiset, so a
stable insertion sort models CPython's sort exactly). -/
def sortDesc (l : List Nat) : List Nat := List.insertionSort (· ≥ ·) l

/-- One worksheet: row `i` of the spreadsheet (1-based) is element `i - 1`. -/
abbrev Sheet := List (List CellValue)

/-- An `openpyxl` workbook: named sheets in workbook order. -/
abbrev Workbook := List (String × Sheet)

/-- Lookup of `workbook[name]` (first sheet with that name). -/
def lookupSheet : Workbook → String → Option Sheet
  | [], _ => none
  | e :: t, n => if e.1 = n then some e.2 else lookupSheet t n

/-- Python `name in workbook.sheetnames`. -/
def hasSheet (wb : Workbook) (n : String) : Bool := (lookupSheet wb n).isSome

/-- Replace the contents of the named sheet (mutation of the live worksheet
object in the source). -/
def updateSheet (wb : Workbook) (n : String) (f : Sheet → Sheet) : Workbook :=
  wb.map (fun e => if e.1 = n then (e.1, f e.2) else e)

/-- Overwrite the named sheet with the given contents. -/
def setSheet (wb : Workbook) (n : String) (ws : Sheet) : Workbook :=
  updateSheet wb n (fun _ => ws)

/-- `worksheet.delete_rows(p)` for a 1-based row number `p`: remove that row;
a row number beyond the sheet is a no-op (`List.eraseIdx` is a no-op out of
range).  The source only ever passes numbers `≥ 2` (`row_index + 2`). -/
def deleteRowAt (ws : Sheet) (p : Nat) : Sheet :=
  if p = 0 then ws else ws.eraseIdx (p - 1)

/-- Lines 210-216 of the source, for a single sheet: sort the tracked row
numbers in descending order, then delete them one at a time. -/
def applySheetDeletions (ws : Sheet) (rows : List Nat) : Sheet :=
  (sortDesc rows).foldl deleteRowAt ws

/-- `cell(row=r, column=c).value` (1-based coordinates); a cell outside the
current extent reads as `None`. -/
def getCell (ws : Sheet) (r c : Nat) : CellValue :=
  ((((ws.get? (r - 1)).getD []).get? (c - 1)).getD .empty)

/-- Pad a list on the right to length at least `n`. -/
def padTo {α : Type} (l : List α) (n : Nat) (a : α) : List α :=
  l ++ List.replicate (n - l.length) a

/-- Assignment `cell(row=r, column=c).value = v` (1-based); openpyxl grows the
sheet as needed, modelled by padding with empty cells. -/
def setCell (ws : Sheet) (r c : Nat) (v : CellValue) : Sheet :=
  let ws' := padTo ws r []
  ws'.set (r - 1) (padTo ((ws'.get? (r - 1)).getD []) c .empty |>.set (c - 1) v)

/-- Scan `row_num in range(1, max_row + 1)` looking at column 1 for the first
cell that is truthy and whose `str(...).strip().lower()` equals `label`;
`i` is the row number of the first row still to examine. -/
def findLabelRowFrom (label : String) : Sheet → Nat → Option Nat
  | [], _ => none
  | row :: rest, i =>
    let v := (row.get? 0).getD .empty
    if cellTruthy v ∧ pyLower (pyStrip (pyStr v)) = label then some i
    else findLabelRowFrom label rest (i + 1)

/-- Row number (1-based) of the first row whose first column matches `label`. -/
def findLabelRow (ws : Sheet) (label : String) : Option Nat :=
  findLabelRowFrom label ws 1

/-- Column of the "Decision Matrix" holding each position
(`pos_to_col = {'QB': 2, 'RB': 3, 'WR': 4, 'K': 5, 'D': 6, 'TE': 7}`). -/
def posToCol (p : String) : Option Nat :=
  if p = "QB" then some 2
  else if p = "RB" then some 3
  else if p = "WR" then some 4
  else if p = "K" then some 5
  else if p = "D" then some 6
  else if p = "TE" then some 7
  else none

/-- Sheet-name to position mapping used by `pick_player_for_team`
(`position_map = {'QBs': 'QB', ...}`). -/
def positionMap (sheet : String) : Option String :=
  if sheet = "QBs" then some "QB"
  else if sheet = "RBs" then some "RB"
  else if sheet = "WRs" then some "WR"
  else if sheet = "Ks" then some "K"
  else if sheet = "Ds" then some "D"
  else if sheet = "TEs" then some "TE"
  else none

/-- Lines 232-241 of the source on one "my squad" cell: read the current value
(a falsy cell reads as `"0/0"`), and if it contains a `/`, split, parse the
left side with `int(...)`, add the delta and rewrite `"<new>/<limit>"`.
`.ok none` means the cell is left untouched (no `/` in the text); `.error ()`
models the uncaught `ValueError` (from unpacking a split with more than two
parts, or from `int(...)` on a non-numeric left side). -/
def updateSquadCell (v : CellValue) (delta : Int) : Except Unit (Option CellValue) :=
  let s := if cellTruthy v then pyStr v else "0/0"
  match pySplit '/' s with
  | [x, y] =>
    match pyInt? x with
    | some n => .ok (some (.str (toString (n + delta) ++ "/" ++ y)))
    | none => .error ()
  | [_] => .ok none
  | _ => .error ()

/-- Loop `for position, count_change in self.my_squad_updates.items()` on the
located "my squad" row `r`. -/
def applySquadRowUpdates : Sheet → Nat → List (String × Int) → Except Unit Sheet
  | ws, _, [] => .ok ws
  | ws, r, (pos, d) :: rest =>
    match posToCol pos with
    | some c =>
      match updateSquadCell (getCell ws r c) d with
      | .ok none => applySquadRowUpdates ws r rest
      | .ok (some v) => applySquadRowUpdates (setCell ws r c v) r rest
      | .error e => .error e
    | none => applySquadRowUpdates ws r rest

/-- Lines 219-242 of the source: if there are squad updates and the workbook
has a "Decision Matrix" sheet, find the "my squad" row and apply the updates
to it (the loop `break`s after the first matching row); missing sheet or
missing row silently drops the deltas. -/
def applyMySquadUpdates (wb : Workbook) (ups : List (String × Int)) :
    Except Unit Workbook :=
  if ups.isEmpty then .ok wb
  else
    match lookupSheet wb "Decision Matrix" with
    | none => .ok wb
    | some ws =>
      match findLabelRow ws "my squad" with
      | none => .ok wb
      | some r =>
        match applySquadRowUpdates ws r ups with
        | .ok ws' => .ok (setSheet wb "Decision Matrix" ws')
        | .error e => .error e

/-- Loop writing the new slip values into the located "slip" row. -/
def applySlipRow (ws : Sheet) (r : Nat) (ups : List (String × Int)) : Sheet :=
  ups.foldl
    (fun ws e =>
      match posToCol e.1 with
      | some c => setCell ws r c (.num e.2)
      | none => ws)
    ws

/-- Lines 245-261 of the source: write each new slip value (a python int) into
the "slip" row of the "Decision Matrix", no parsing. -/
def applySlipUpdates (wb : Workbook) (ups : List (String × Int)) : Workbook :=
  if ups.isEmpty then wb
  else
    match lookupSheet wb "Decision Matrix" with
    | none => wb
    | some ws =>
      match findLabelRow ws "slip" with
      | none => wb
      | some r => setSheet wb "Decision Matrix" (applySlipRow ws r ups)

/-- Lines 206-216 of the source: for each `(sheet_name, rows_to_delete)` entry
of `pending_deletions`, if the sheet exists, sort the row list in place in
descending order and delete the rows one at a time.  Returns the edited
workbook together with the dictionary as it stands afterwards (the in-place
`rows_to_delete.sort(reverse=True)` persists in `self.pending_deletions`). -/
def processDeletions : Workbook → List (String × List Nat) →
    Workbook × List (String × List Nat)
  | wb, [] => (wb, [])
  | wb, (n, rows) :: rest =>
    if hasSheet wb n then
      let res := processDeletions (updateSheet wb n (fun ws => applySheetDeletions ws rows)) rest
      (res.1, (n, sortDesc rows) :: res.2)
    else
      let res := processDeletions wb rest
      (res.1, (n, rows) :: res.2)

/-- One pandas column of a loaded sheet: its name, whether its dtype is
`object` (text), and its values in row order. -/
structure Column where
  name : String
  isObject : Bool
  values : List CellValue
  deriving DecidableEq, Repr

/-- A pandas `DataFrame` as its list of columns. -/
abbrev DataFrame := List Column

/-- `self.sheets_data`: sheet name to loaded frame, in sheet order. -/
abbrev SheetsData := List (String × DataFrame)

/-- Python `len(df)`: the number of rows. -/
def dfRowCount (df : DataFrame) : Nat :=
  match df with
  | [] => 0
  | c :: _ => c.values.length

/-- Full state of a `FantasyDraftManager` object. -/
structure DraftState where
  disk : Workbook
  sheetsData : SheetsData
  pendingDeletions : List (String × List Nat)
  mySquadUpdates : List (String × Int)
  slipUpdates : List (String × Int)
  deriving DecidableEq, Repr

/-- Which of the two fallible external calls of `save_spreadsheet` fails:
`openpyxl.load_workbook` (`loadFail`), `workbook.save` (`saveFail`), or
neither (`ok`). -/
inductive IOOutcome where
  | loadFail
  | saveFail
  | ok
  deriving DecidableEq, Repr

/-- How a call of `save_spreadsheet` ended: early return with "No changes to
save", the success path (line 276), or the `except` handler (line 278). -/
inductive FlushOutcome where
  | noChanges
  | saved
  | failed
  deriving DecidableEq, Repr

/-- Lines 194-279 of the source, `save_spreadsheet`: early-return when all
three pending maps are empty; otherwise open the workbook, apply deletions,
squad-counter updates and slip overwrites, save, reload the pandas snapshot
(`load` models `pandas.read_excel`) and clear the three maps.  Any exception
(failed load, `ValueError` while parsing a counter cell, failed save) is
caught: the file is untouched and the pending maps are kept, except that the
deletion lists of sheets present in the workbook have been sorted in place. -/
def save_spreadsheet (load : Workbook → SheetsData) (st : DraftState)
    (io : IOOutcome) : DraftState × FlushOutcome :=
  if st.pendingDeletions.isEmpty && st.mySquadUpdates.isEmpty
      && st.slipUpdates.isEmpty then
    (st, .noChanges)
  else
    match io with
    | .loadFail => (st, .failed)
    | _ =>
      let pd := processDeletions st.disk st.pendingDeletions
      match applyMySquadUpdates pd.1 st.mySquadUpdates with
      | .error _ => ({ st with pendingDeletions := pd.2 }, .failed)
      | .ok wb2 =>
        let wb3 := applySlipUpdates wb2 st.slipUpdates
        match io with
        | .saveFail => ({ st with pendingDeletions := pd.2 }, .failed)
        | _ =>
          ({ st with
              disk := wb3
              sheetsData := load wb3
              pendingDeletions := []
              mySquadUpdates := []
              slipUpdates := [] }, .saved)

/-- One entry of the `matches` list built by `search_player_by_last_name`, as
consumed by `remove_player_rows` / `pick_player_for_team` (`match['sheet']`
and `match['index']`). -/
structure MatchSel where
  sheet : String
  index : Nat
  deriving DecidableEq, Repr

/-- Append one tracked row number to `pending_deletions[sheet]`, creating the
key when absent (python dict get-or-create followed by `list.append`). -/
def assocAppend (l : List (String × List Nat)) (k : String) (p : Nat) :
    List (String × List Nat) :=
  match l with
  | [] => [(k, [p])]
  | (k', v) :: t => if k' = k then (k', v ++ [p]) :: t else (k', v) :: assocAppend t k p

/-- `self.my_squad_updates[position] += 1` with get-or-create of the key. -/
def assocBump (l : List (String × Int)) (k : String) (d : Int) :
    List (String × Int) :=
  match l with
  | [] => [(k, d)]
  | (k', v) :: t => if k' = k then (k', v + d) :: t else (k', v) :: assocBump t k d

/-- Lines 101-122 of the source, `remove_player_rows`: for each selected index
within bounds, append `row_index + 2` to `pending_deletions[sheet]`; returns
the updated state and the count of marks made.  (Indices typed by the user
that are out of range are skipped; negative python ints also fail the
`0 <= i` test and are outside this `Nat`-indexed model.) -/
def remove_player_rows (st : DraftState) (sel : List MatchSel)
    (idxs : List Nat) : DraftState × Nat :=
  idxs.foldl
    (fun acc i =>
      match sel.get? i with
      | some m =>
        ({ acc.1 with
            pendingDeletions := assocAppend acc.1.pendingDeletions m.sheet (m.index + 2) },
         acc.2 + 1)
      | none => acc)
    (st, 0)

/-- Lines 124-160 of the source, `pick_player_for_team`: like
`remove_player_rows`, plus `my_squad_updates[position] += 1` when the sheet
has an entry in `position_map`; a sheet with no mapping still gets the
deletion mark and is still counted as picked. -/
def pick_player_for_team (st : DraftState) (sel : List MatchSel)
    (idxs : List Nat) : DraftState × Nat :=
  idxs.foldl
    (fun acc i =>
      match sel.get? i with
      | some m =>
        let st1 :=
          { acc.1 with
              pendingDeletions := assocAppend acc.1.pendingDeletions m.sheet (m.index + 2) }
        let st2 :=
          match positionMap m.sheet with
          | some pos => { st1 with mySquadUpdates := assocBump st1.mySquadUpdates pos 1 }
          | none => st1
        (st2, acc.2 + 1)
      | none => acc)
    (st, 0)

/-- One match record produced by `search_player_by_last_name` (the dict
`{'sheet': ..., 'index': ..., 'row_data': ..., 'matching_column': ...}`). -/
structure PMatch where
  sheet : String
  index : Nat
  rowData : List (String × CellValue)
  matchingColumn : String
  deriving DecidableEq, Repr

/-- The full row at index `i` of a frame, as produced by `iterrows`. -/
def rowData (df : DataFrame) (i : Nat) : List (String × CellValue) :=
  df.map (fun c => (c.name, (c.values.get? i).getD .empty))

/-- Matches contributed by one `object`-dtype column `c` of frame `df` in
sheet `sn` for the prepared query `q`: one record per row whose
`astype(str).lower()` rendering contains `q` as a substring, in row order. -/
def colMatches (sn : String) (df : DataFrame) (q : String) (c : Column) :
    List PMatch :=
  (c.values.enum.filter (fun p => strContains (pyLower (pandasStr p.2)) q)).map
    (fun p =>
      { sheet := sn, index := p.1, rowData := rowData df p.1,
        matchingColumn := c.name })

/-- Lines 75-99 of the source, `search_player_by_last_name`: lower-case and
strip the query, then for every sheet with at least one row, for every column
whose dtype is `object`, collect a match for every row whose
`astype(str).lower()` rendering contains the query as a substring.  The
resulting order is: sheet (load order), then column, then row. -/
def search_player_by_last_name (sheets : SheetsData) (last_name : String) :
    List PMatch :=
  let q := pyStrip (pyLower last_name)
  sheets.foldl
    (fun ms e =>
      if dfRowCount e.2 = 0 then ms
      else
        e.2.foldl
          (fun ms c => if c.isObject then ms ++ colMatches e.1 e.2 q c else ms)
          ms)
    []

/-- Result cells computed by `_compute_decision_matrix_values` for one
position: the `top_player`, `lower_player` and `diff` strings. -/
structure StatsCells where
  topPlayer : String
  lowerPlayer : String
  diff : String
  deriving DecidableEq, Repr

/-- Numeric reading of a cell for the points column (`NaN` is missing). -/
def cellNum? : CellValue → Option Int
  | .num n => some n
  | _ => none

/-- Lines 359-364 of the source: the first column whose lower-cased name
contains one of the terms `point`, `projected`, `season`. -/
def findPointsCol (df : DataFrame) : Option Column :=
  df.find? (fun c =>
    strContains (pyLower c.name) "point" || strContains (pyLower c.name) "projected"
      || strContains (pyLower c.name) "season")

/-- Lines 367-369 of the source: sort by the points column descending with
missing values last, then drop the rows whose value is missing.  On the
values this equals sorting the non-missing values in descending order. -/
def sortedPointsDesc (c : Column) : List Int :=
  List.insertionSort (· ≥ ·) (c.values.filterMap cellNum?)

/-- Lines 352-404 of the source, `_compute_decision_matrix_values`, for one
position's sheet `df` with slip value `slip` (the result of
`_get_slip_value`, `none` when the slip row is absent or non-numeric): the
`top_player` is the largest value; `lower_player`/`diff` are produced only
when `slip` is a number `> 0` and more than `slip` rows remain. -/
def compute_for_category (df : DataFrame) (slip : Option Int) : StatsCells :=
  if dfRowCount df = 0 then ⟨"N/A", "N/A", "N/A"⟩
  else
    match findPointsCol df with
    | none => ⟨"N/A", "N/A", "N/A"⟩
    | some c =>
      match sortedPointsDesc c with
      | [] => ⟨"N/A", "N/A", "N/A"⟩
      | top :: rest =>
        match slip with
        | some s =>
          if 0 < s ∧ s < ((top :: rest).length : Int) then
            let lower := ((top :: rest).get? s.toNat).getD 0
            ⟨toString top, toString lower, toString (top - lower)⟩
          else ⟨toString top, "N/A", "N/A"⟩
        | none => ⟨toString top, "N/A", "N/A"⟩

/-! ### Helper lemmas -/

theorem sortDesc_eq_of_perm_of_sorted {l d : List Nat} (hp : l.Perm d)
    (hs : d.Sorted (· > ·)) : sortDesc l = d := by
  have h1 : (sortDesc l).Sorted (· ≥ ·) := List.sorted_insertionSort _ l
  have h2 : (sortDesc l).Perm d := (List.perm_insertionSort _ l).trans hp
  exact List.eq_of_perm_of_sorted h2 h1 (hs.imp le_of_lt)

theorem sortDesc_perm (l : List Nat) : (sortDesc l).Perm l :=
  List.perm_insertionSort _ l

theorem padTo_length {α : Type} (l : List α) (n : Nat) (a : α) :
    (padTo l n a).length = l.length + (n - l.length) := by
  simp [padTo]

theorem padTo_getElem?_getD {α : Type} (l : List α) (n i : Nat) (a : α) :
    ((padTo l n a)[i]?).getD a = (l[i]?).getD a := by
  by_cases h : i < l.length
  · rw [padTo, List.getElem?_append_left h]
  · push_neg at h
    rcases Nat.lt_or_ge i (padTo l n a).length with h2 | h2
    · rw [padTo_length] at h2
      rw [padTo, List.getElem?_append_right h, List.getElem?_replicate_of_lt (by omega),
        List.getElem?_eq_none h]
      rfl
    · rw [List.getElem?_eq_none h2, List.getElem?_eq_none (by rw [padTo_length] at h2; omega)]

theorem getCell_eq (ws : Sheet) (r c : Nat) :
    getCell ws r c = (((ws[r - 1]?).getD [])[c - 1]?).getD .empty := by
  simp [getCell, List.get?_eq_getElem?]

theorem setCell_getElem?_row (ws : Sheet) (r c : Nat) (v : CellValue) (hr : 1 ≤ r) :
    (setCell ws r c v)[r - 1]? =
      some ((padTo (((padTo ws r [])[r - 1]?).getD []) c .empty).set (c - 1) v) := by
  have hlen : r - 1 < (padTo ws r []).length := by rw [padTo_length]; omega
  simp only [setCell, List.get?_eq_getElem?]
  exact List.getElem?_set_eq_of_lt _ hlen

theorem getCell_setCell_self (ws : Sheet) (r c : Nat) (v : CellValue)
    (hr : 1 ≤ r) (hc : 1 ≤ c) : getCell (setCell ws r c v) r c = v := by
  rw [getCell_eq, setCell_getElem?_row ws r c v hr]
  simp only [Option.getD_some]
  have hrow : c - 1 < (padTo (((padTo ws r [])[r - 1]?).getD []) c .empty).length := by
    rw [padTo_length]; omega
  simp [List.getElem?_set_eq_of_lt _ hrow]

theorem getCell_setCell_ne (ws : Sheet) (r c r' c' : Nat) (v : CellValue)
    (hr : 1 ≤ r) (hc : 1 ≤ c) (hr' : 1 ≤ r') (hc' : 1 ≤ c')
    (hne : r' ≠ r ∨ c' ≠ c) :
    getCell (setCell ws r c v) r' c' = getCell ws r' c' := by
  by_cases hrr : r' = r
  · subst hrr
    have hcc : c' ≠ c := by simpa using hne
    rw [getCell_eq, setCell_getElem?_row ws r' c v hr]
    simp only [Option.getD_some]
    have hidx : c' - 1 ≠ c - 1 := by omega
    rw [List.getElem?_set_ne (fun h => hidx h.symm), padTo_getElem?_getD,
      getCell_eq, padTo_getElem?_getD]
  · have hidx : r' - 1 ≠ r - 1 := by omega
    rw [getCell_eq, getCell_eq]
    simp only [setCell, List.get?_eq_getElem?]
    rw [List.getElem?_set_ne (fun h => hidx h.symm)]
    rw [padTo_getElem?_getD]

theorem lookupSheet_updateSheet_ne (wb : Workbook) (n m : String) (f : Sheet → Sheet)
    (h : m ≠ n) : lookupSheet (updateSheet wb n f) m = lookupSheet wb m := by
  induction wb with
  | nil => rfl
  | cons e t ih =>
    obtain ⟨k, s⟩ := e
    by_cases hk : k = n
    · subst hk
      have hkm : ¬(k = m) := fun hh => h (hh ▸ rfl)
      simp [updateSheet, lookupSheet, hkm] at ih ⊢
      exact ih
    · by_cases hm : k = m
      · subst hm
        simp [updateSheet, lookupSheet, h]
      · simp [updateSheet, lookupSheet, hk, hm] at ih ⊢
        exact ih

theorem lookupSheet_updateSheet_self (wb : Workbook) (n : String) (f : Sheet → Sheet)
    (ws : Sheet) (h : lookupSheet wb n = some ws) :
    lookupSheet (updateSheet wb n f) n = some (f ws) := by
  induction wb with
  | nil => simp [lookupSheet] at h
  | cons e t ih =>
    obtain ⟨k, s⟩ := e
    by_cases hk : k = n
    · subst hk
      simp [lookupSheet] at h
      simp [updateSheet, lookupSheet, h]
    · simp [lookupSheet, hk] at h
      simp [updateSheet, lookupSheet, hk] at ih ⊢
      exact ih h

theorem processDeletions_fst_lookup (pending : List (String × List Nat)) (wb : Workbook)
    (m : String) (h : ∀ e ∈ pending, e.1 ≠ m) :
    lookupSheet (processDeletions wb pending).1 m = lookupSheet wb m := by
  induction pending generalizing wb with
  | nil => rfl
  | cons e rest ih =>
    obtain ⟨n, rows⟩ := e
    have hn : n ≠ m := h (n, rows) (List.mem_cons_self _ _)
    have ht : ∀ e ∈ rest, e.1 ≠ m := fun e he => h e (List.mem_cons_of_mem _ he)
    by_cases hs : hasSheet wb n
    · simp only [processDeletions, if_pos hs]
      rw [ih _ ht, lookupSheet_updateSheet_ne _ _ _ _ (fun hh => hn hh.symm)]
    · simp only [processDeletions, if_neg hs]
      exact ih _ ht

theorem processDeletions_snd (pending : List (String × List Nat)) (wb : Workbook) :
    List.Forall₂ (fun a b => a.1 = b.1 ∧ a.2.Perm b.2)
      (processDeletions wb pending).2 pending := by
  induction pending generalizing wb with
  | nil => exact List.Forall₂.nil
  | cons e rest ih =>
    obtain ⟨n, rows⟩ := e
    by_cases hs : hasSheet wb n
    · simp only [processDeletions, if_pos hs]
      exact List.Forall₂.cons ⟨rfl, sortDesc_perm rows⟩ (ih _)
    · simp only [processDeletions, if_neg hs]
      exact List.Forall₂.cons ⟨rfl, List.Perm.refl rows⟩ (ih _)

theorem forall₂_keys_perm_refl (l : List (String × List Nat)) :
    List.Forall₂ (fun a b => a.1 = b.1 ∧ a.2.Perm b.2) l l := by
  induction l with
  | nil => exact List.Forall₂.nil
  | cons e t ih => exact List.Forall₂.cons ⟨rfl, List.Perm.refl _⟩ ih

theorem posToCol_inj {p q : String} {c : Nat} (hp : posToCol p = some c)
    (hq : posToCol q = some c) : p = q := by
  unfold posToCol at hp hq
  split_ifs at hp hq <;> simp_all <;> omega

theorem posToCol_ge_two {p : String} {c : Nat} (hp : posToCol p = some c) : 2 ≤ c := by
  unfold posToCol at hp
  split_ifs at hp <;> simp_all <;> omega

theorem splitCharList_no_sep {sep : Char} {cs : List Char} (h : sep ∉ cs) :
    splitCharList sep cs = [cs] := by
  induction cs with
  | nil => rfl
  | cons c t ih =>
    have hc : ¬(c = sep) := fun hh => h (hh ▸ List.mem_cons_self _ _)
    have ht : sep ∉ t := fun hh => h (List.mem_cons_of_mem _ hh)
    simp only [splitCharList, if_neg hc, ih ht]

theorem splitCharList_append {sep : Char} {a b : List Char} (h : sep ∉ a) :
    splitCharList sep (a ++ sep :: b) = a :: splitCharList sep b := by
  induction a with
  | nil => simp [splitCharList]
  | cons c t ih =>
    have hc : ¬(c = sep) := fun hh => h (hh ▸ List.mem_cons_self _ _)
    have ht : sep ∉ t := fun hh => h (List.mem_cons_of_mem _ hh)
    have := ih ht
    simp only [List.cons_append, splitCharList, if_neg hc, List.append_eq, this]

theorem splitCharList_ne_nil (sep : Char) (cs : List Char) : splitCharList sep cs ≠ [] := by
  induction cs with
  | nil => simp [splitCharList]
  | cons c t ih =>
    by_cases hc : c = sep
    · simp [splitCharList, hc]
    · simp only [splitCharList, if_neg hc]
      cases hsp : splitCharList sep t with
      | nil => simp
      | cons hd tl => simp

theorem String_data_append (a b : String) : (a ++ b).data = a.data ++ b.data := rfl

theorem String_mk_data (s : String) : String.mk s.data = s := rfl

theorem pySplit_two {X Y : String} (hX : ('/' : Char) ∉ X.data) (hY : ('/' : Char) ∉ Y.data) :
    pySplit '/' (X ++ "/" ++ Y) = [X, Y] := by
  have hdata : (X ++ "/" ++ Y).data = X.data ++ '/' :: Y.data := by
    rw [String_data_append, String_data_append]
    rw [show ("/" : String).data = ['/'] from rfl, List.append_assoc]
    rfl
  rw [pySplit, hdata, splitCharList_append hX, splitCharList_no_sep hY]
  simp [String_mk_data]

theorem updateSquadCell_wf {X Y : String} {n d : Int}
    (hX : pyInt? X = some n) (hXs : ('/' : Char) ∉ X.data) (hYs : ('/' : Char) ∉ Y.data) :
    updateSquadCell (.str (X ++ "/" ++ Y)) d
      = .ok (some (.str (toString (n + d) ++ "/" ++ Y))) := by
  have hne : (X ++ "/" ++ Y) ≠ "" := by
    intro h
    have := congrArg String.data h
    rw [String_data_append, String_data_append] at this
    simp at this
  have htruthy : cellTruthy (.str (X ++ "/" ++ Y)) = true := by
    simp [cellTruthy, hne]
  simp only [updateSquadCell, htruthy, if_pos, pyStr, pySplit_two hXs hYs, hX]

theorem applySquadRowUpdates_frame {ups : List (String × Int)} {ws ws' : Sheet} {r c : Nat}
    (hok : applySquadRowUpdates ws r ups = .ok ws')
    (hr : 1 ≤ r) (hc : 1 ≤ c)
    (hno : ∀ e ∈ ups, posToCol e.1 ≠ some c) :
    getCell ws' r c = getCell ws r c := by
  induction ups generalizing ws with
  | nil => simp only [applySquadRowUpdates] at hok; cases hok; rfl
  | cons e rest ih =>
    obtain ⟨pos, d⟩ := e
    have hhead : posToCol pos ≠ some c := hno (pos, d) (List.mem_cons_self _ _)
    have htail : ∀ e ∈ rest, posToCol e.1 ≠ some c := fun e he => hno e (List.mem_cons_of_mem _ he)
    simp only [applySquadRowUpdates] at hok
    cases hcol : posToCol pos with
    | none =>
      simp only [hcol] at hok
      exact ih hok htail
    | some c0 =>
      simp only [hcol] at hok
      have hc0 : c0 ≠ c := fun h => hhead (h ▸ hcol)
      cases hupd : updateSquadCell (getCell ws r c0) d with
      | error e0 => simp only [hupd] at hok; simp at hok
      | ok vo =>
        simp only [hupd] at hok
        cases vo with
        | none => exact ih hok htail
        | some v =>
          rw [ih hok htail]
          exact getCell_setCell_ne ws r c0 r c v hr
            (by have := posToCol_ge_two hcol; omega) hr hc
            (Or.inr (fun h => hc0 h.symm))

theorem applySquadRowUpdates_cell {ups : List (String × Int)} {ws ws' : Sheet} {r c : Nat}
    {pos : String} {d n : Int} {X Y : String}
    (hnodup : (ups.map Prod.fst).Nodup)
    (hmem : (pos, d) ∈ ups)
    (hcol : posToCol pos = some c)
    (hr : 1 ≤ r)
    (hcell : getCell ws r c = .str (X ++ "/" ++ Y))
    (hX : pyInt? X = some n) (hXs : ('/' : Char) ∉ X.data) (hYs : ('/' : Char) ∉ Y.data)
    (hok : applySquadRowUpdates ws r ups = .ok ws') :
    getCell ws' r c = .str (toString (n + d) ++ "/" ++ Y) := by
  induction ups generalizing ws with
  | nil => simp at hmem
  | cons e rest ih =>
    obtain ⟨p0, d0⟩ := e
    have hc2 : 2 ≤ c := posToCol_ge_two hcol
    by_cases hp : p0 = pos
    · subst hp
      have hnotail : p0 ∉ rest.map Prod.fst := by
        simp only [List.map_cons, List.nodup_cons] at hnodup
        exact hnodup.1
      have hd : d0 = d := by
        rcases List.mem_cons.mp hmem with h | h
        · exact (Prod.mk.injEq _ _ _ _ ▸ h.symm).2
        · exact absurd (List.mem_map_of_mem Prod.fst h) hnotail
      subst hd
      simp only [applySquadRowUpdates, hcol, hcell, updateSquadCell_wf hX hXs hYs] at hok
      have hframe : ∀ e ∈ rest, posToCol e.1 ≠ some c := by
        intro e he hce
        exact hnotail (posToCol_inj hce hcol ▸ List.mem_map_of_mem Prod.fst he)
      rw [applySquadRowUpdates_frame hok hr (by omega) hframe]
      exact getCell_setCell_self ws r c _ hr (by omega)
    · have hmem' : (pos, d) ∈ rest := by
        rcases List.mem_cons.mp hmem with h | h
        · exact absurd (congrArg Prod.fst h).symm hp
        · exact h
      have hnodup' : (rest.map Prod.fst).Nodup := by
        simp only [List.map_cons, List.nodup_cons] at hnodup
        exact hnodup.2
      simp only [applySquadRowUpdates] at hok
      cases hcol0 : posToCol p0 with
      | none =>
        simp only [hcol0] at hok
        exact ih hnodup' hmem' hcell hok
      | some c0 =>
        simp only [hcol0] at hok
        have hc0 : c0 ≠ c := fun h => hp (posToCol_inj (h ▸ hcol0) hcol)
        cases hupd : updateSquadCell (getCell ws r c0) d0 with
        | error e0 => simp only [hupd] at hok; simp at hok
        | ok vo =>
          simp only [hupd] at hok
          cases vo with
          | none => exact ih hnodup' hmem' hcell hok
          | some v =>
            have hcell' : getCell (setCell ws r c0 v) r c = .str (X ++ "/" ++ Y) := by
              rw [getCell_setCell_ne ws r c0 r c v hr
                (by have := posToCol_ge_two hcol0; omega) hr (by omega)
                (Or.inr (fun h => hc0 h.symm))]
              exact hcell
            exact ih hnodup' hmem' hcell' hok

theorem findLabelRowFrom_spec {label : String} {rows : Sheet} {i r : Nat}
    (h : findLabelRowFrom label rows i = some r) :
    i ≤ r ∧ ∃ row, rows[r - i]? = some row ∧
      cellTruthy ((row.get? 0).getD .empty) = true ∧
      pyLower (pyStrip (pyStr ((row.get? 0).getD .empty))) = label := by
  induction rows generalizing i with
  | nil => simp [findLabelRowFrom] at h
  | cons row rest ih =>
    simp only [findLabelRowFrom] at h
    split at h
    · rename_i hcond
      cases h
      refine ⟨le_refl r, row, ?_, by simpa using hcond.1, hcond.2⟩
      simp
    · obtain ⟨hle, row', hget, hrow'⟩ := ih h
      refine ⟨by omega, row', ?_, hrow'⟩
      rw [← hget]
      have : r - i = (r - (i + 1)) + 1 := by omega
      rw [this]
      simp

theorem findLabelRow_spec {label : String} {ws : Sheet} {r : Nat}
    (h : findLabelRow ws label = some r) :
    1 ≤ r ∧ cellTruthy (getCell ws r 1) = true ∧
      pyLower (pyStrip (pyStr (getCell ws r 1))) = label := by
  obtain ⟨hle, row, hget, htr, hlab⟩ := findLabelRowFrom_spec h
  have : getCell ws r 1 = (row.get? 0).getD .empty := by
    rw [getCell_eq]
    have : r - 1 = r - 1 := rfl
    rw [show ws[r - 1]? = some row from hget]
    simp [List.get?_eq_getElem?]
  exact ⟨hle, this ▸ htr, this ▸ hlab⟩

theorem applySquadRowUpdates_col1 {ups : List (String × Int)} {ws ws' : Sheet} {r : Nat}
    (hok : applySquadRowUpdates ws r ups = .ok ws') (hr : 1 ≤ r) :
    ∀ r', 1 ≤ r' → getCell ws' r' 1 = getCell ws r' 1 := by
  induction ups generalizing ws with
  | nil => simp only [applySquadRowUpdates] at hok; cases hok; intro r' _; rfl
  | cons e rest ih =>
    obtain ⟨p0, d0⟩ := e
    intro r' hr'
    simp only [applySquadRowUpdates] at hok
    cases hcol0 : posToCol p0 with
    | none =>
      simp only [hcol0] at hok
      exact ih hok r' hr'
    | some c0 =>
      simp only [hcol0] at hok
      cases hupd : updateSquadCell (getCell ws r c0) d0 with
      | error e0 => simp only [hupd] at hok; simp at hok
      | ok vo =>
        simp only [hupd] at hok
        cases vo with
        | none => exact ih hok r' hr'
        | some v =>
          rw [ih hok r' hr']
          exact getCell_setCell_ne ws r c0 r' 1 v hr
            (by have := posToCol_ge_two hcol0; omega) hr' (by omega)
            (Or.inr (by have := posToCol_ge_two hcol0; omega))

theorem applySlipRow_frame (ups : List (String × Int)) (ws : Sheet) (r' r c : Nat)
    (hne : r ≠ r') (hr : 1 ≤ r) (hr' : 1 ≤ r') (hc : 1 ≤ c) :
    getCell (applySlipRow ws r' ups) r c = getCell ws r c := by
  induction ups generalizing ws with
  | nil => rfl
  | cons e rest ih =>
    have hstep : applySlipRow ws r' (e :: rest)
        = applySlipRow (match posToCol e.1 with
            | some c0 => setCell ws r' c0 (.num e.2)
            | none => ws) r' rest := by
      simp [applySlipRow]
    rw [hstep]
    cases hcol0 : posToCol e.1 with
    | none => simp only [hcol0]; exact ih ws
    | some c0 =>
      simp only [hcol0]
      rw [ih _]
      exact getCell_setCell_ne ws r' c0 r c _ hr'
        (by have := posToCol_ge_two hcol0; omega) hr hc (Or.inl hne)

/-- Claim C4: for every "my squad" cell holding a string "X/Y" with integer
left part and an accumulated counter delta `d` for its category, a successful
flush rewrites that cell to "(X+d)/Y": the picked count is incremented by the
delta and the limit `Y` after the slash is carried over verbatim, whatever
else the flush does (deletions in other sheets, other categories' deltas,
slip overwrites). -/
theorem counter_round_trip (load : Workbook → SheetsData) (st st' : DraftState)
    (io : IOOutcome) (ws : Sheet) (r c : Nat) (pos X Y : String) (d n : Int)
    (hdm : lookupSheet st.disk "Decision Matrix" = some ws)
    (hnodel : ∀ e ∈ st.pendingDeletions, e.1 ≠ "Decision Matrix")
    (hrow : findLabelRow ws "my squad" = some r)
    (hcol : posToCol pos = some c)
    (hmem : (pos, d) ∈ st.mySquadUpdates)
    (hnodup : (st.mySquadUpdates.map Prod.fst).Nodup)
    (hcell : getCell ws r c = .str (X ++ "/" ++ Y))
    (hX : pyInt? X = some n) (hXs : ('/' : Char) ∉ X.data) (hYs : ('/' : Char) ∉ Y.data)
    (hflush : save_spreadsheet load st io = (st', .saved)) :
    ∃ ws', lookupSheet st'.disk "Decision Matrix" = some ws' ∧
      getCell ws' r c = .str (toString (n + d) ++ "/" ++ Y) := by
  have hr1 : 1 ≤ r := (findLabelRow_spec hrow).1
  have hc1 : 1 ≤ c := by have := posToCol_ge_two hcol; omega
  have hups_ne : st.mySquadUpdates.isEmpty = false := by
    cases hu : st.mySquadUpdates with
    | nil => rw [hu] at hmem; simp at hmem
    | cons a t => simp [List.isEmpty]
  have hcond : ¬((st.pendingDeletions.isEmpty && st.mySquadUpdates.isEmpty
      && st.slipUpdates.isEmpty) = true) := by simp [hups_ne]
  have hlook1 : lookupSheet (processDeletions st.disk st.pendingDeletions).1
      "Decision Matrix" = some ws := by
    rw [processDeletions_fst_lookup _ _ _ hnodel]; exact hdm
  -- reduce the flush equation
  unfold save_spreadsheet at hflush
  rw [if_neg hcond] at hflush
  cases io with
  | loadFail => simp at hflush
  | saveFail =>
    -- dispatch on the squad update result: every branch ends in .failed
    cases hsq : applyMySquadUpdates (processDeletions st.disk st.pendingDeletions).1
        st.mySquadUpdates with
    | error e => simp only [hsq] at hflush; simp at hflush
    | ok wb2 => simp only [hsq] at hflush; simp at hflush
  | ok =>
    cases hsr : applySquadRowUpdates ws r st.mySquadUpdates with
    | error e =>
      have hsq : applyMySquadUpdates (processDeletions st.disk st.pendingDeletions).1
          st.mySquadUpdates = .error e := by
        simp [applyMySquadUpdates, hups_ne, hlook1, hrow, hsr]
      simp only [hsq] at hflush; simp at hflush
    | ok ws2 =>
      have hsq : applyMySquadUpdates (processDeletions st.disk st.pendingDeletions).1
          st.mySquadUpdates
          = .ok (setSheet (processDeletions st.disk st.pendingDeletions).1
              "Decision Matrix" ws2) := by
        simp [applyMySquadUpdates, hups_ne, hlook1, hrow, hsr]
      simp only [hsq] at hflush
      have hcell2 : getCell ws2 r c = .str (toString (n + d) ++ "/" ++ Y) :=
        applySquadRowUpdates_cell hnodup hmem hcol hr1 hcell hX hXs hYs hsr
      have hlook2 : lookupSheet (setSheet (processDeletions st.disk st.pendingDeletions).1
          "Decision Matrix" ws2) "Decision Matrix" = some ws2 :=
        lookupSheet_updateSheet_self _ _ _ _ hlook1
      -- the slip step either leaves the sheet alone or writes a different row
      have hslipcell : ∃ ws3,
          lookupSheet (applySlipUpdates (setSheet (processDeletions st.disk
            st.pendingDeletions).1 "Decision Matrix" ws2) st.slipUpdates)
            "Decision Matrix" = some ws3 ∧ getCell ws3 r c = getCell ws2 r c := by
        by_cases hsl : st.slipUpdates.isEmpty
        · exact ⟨ws2, by rw [applySlipUpdates, if_pos hsl]; exact hlook2, rfl⟩
        · cases hfr : findLabelRow ws2 "slip" with
          | none =>
            have hwb3 : applySlipUpdates (setSheet (processDeletions st.disk
                st.pendingDeletions).1 "Decision Matrix" ws2) st.slipUpdates
                = setSheet (processDeletions st.disk st.pendingDeletions).1
                    "Decision Matrix" ws2 := by
              simp [applySlipUpdates, hsl, hlook2, hfr]
            rw [hwb3]
            exact ⟨ws2, hlook2, rfl⟩
          | some r' =>
            have hwb3 : applySlipUpdates (setSheet (processDeletions st.disk
                st.pendingDeletions).1 "Decision Matrix" ws2) st.slipUpdates
                = setSheet (setSheet (processDeletions st.disk st.pendingDeletions).1
                    "Decision Matrix" ws2) "Decision Matrix"
                    (applySlipRow ws2 r' st.slipUpdates) := by
              simp [applySlipUpdates, hsl, hlook2, hfr]
            rw [hwb3]
            have hr'1 : 1 ≤ r' := (findLabelRow_spec hfr).1
            have hrne : r ≠ r' := by
              intro he
              have h1 := (findLabelRow_spec hrow).2.2
              have h2 := (findLabelRow_spec hfr).2.2
              have hcol1 : getCell ws2 r' 1 = getCell ws r' 1 :=
                applySquadRowUpdates_col1 hsr hr1 r' hr'1
              rw [hcol1, ← he, h1] at h2
              simp at h2
            refine ⟨applySlipRow ws2 r' st.slipUpdates, ?_, ?_⟩
            · exact lookupSheet_updateSheet_self _ _ _ _ hlook2
            · exact applySlipRow_frame _ _ _ _ _ hrne hr1 hr'1 hc1
      obtain ⟨ws3, hlook3, hcell3⟩ := hslipcell
      refine ⟨ws3, ?_, ?_⟩
      · have hdisk : st'.disk = applySlipUpdates (setSheet (processDeletions st.disk
            st.pendingDeletions).1 "Decision Matrix" ws2) st.slipUpdates := by
          have := congrArg Prod.fst hflush
          simp at this
          rw [← this]
        rw [hdisk]; exact hlook3
      · rw [hcell3]; exact hcell2

/-- Claim C2 (amended): a flush that ends on the success path leaves all three
pending-edit maps empty; a flush that fails leaves the on-disk workbook, the
in-memory snapshot, the counter-delta map and the scalar-overwrite map exactly
as they were, and keeps every pending deletion position of every table — but
only up to order: the failure path may leave each deletion list sorted
descending in place, so the pending-edit set is preserved as a multiset per
table rather than verbatim. -/
theorem flush_clear_or_retain (load : Workbook → SheetsData) (st st' : DraftState)
    (io : IOOutcome) :
    (save_spreadsheet load st io = (st', .saved) →
      st'.pendingDeletions = [] ∧ st'.mySquadUpdates = [] ∧ st'.slipUpdates = []) ∧
    (save_spreadsheet load st io = (st', .failed) →
      st'.disk = st.disk ∧ st'.sheetsData = st.sheetsData ∧
      st'.mySquadUpdates = st.mySquadUpdates ∧ st'.slipUpdates = st.slipUpdates ∧
      List.Forall₂ (fun a b => a.1 = b.1 ∧ a.2.Perm b.2)
        st'.pendingDeletions st.pendingDeletions) := by
  unfold save_spreadsheet
  by_cases hg : (st.pendingDeletions.isEmpty && st.mySquadUpdates.isEmpty
      && st.slipUpdates.isEmpty) = true
  · rw [if_pos hg]
    constructor <;> intro h <;> simp at h
  · rw [if_neg hg]
    cases io with
    | loadFail =>
      constructor <;> intro h
      · simp at h
      · have h1 : st' = st := by
          have := congrArg Prod.fst h
          simpa using this.symm
        subst h1
        exact ⟨rfl, rfl, rfl, rfl, forall₂_keys_perm_refl _⟩
    | saveFail =>
      cases hsq : applyMySquadUpdates (processDeletions st.disk st.pendingDeletions).1
          st.mySquadUpdates with
      | error e =>
        constructor <;> intro h <;> simp only [hsq] at h
        · simp at h
        · have h1 : st' = { st with
              pendingDeletions := (processDeletions st.disk st.pendingDeletions).2 } := by
            have := congrArg Prod.fst h
            simpa using this.symm
          subst h1
          exact ⟨rfl, rfl, rfl, rfl, processDeletions_snd _ _⟩
      | ok wb2 =>
        constructor <;> intro h <;> simp only [hsq] at h
        · simp at h
        · have h1 : st' = { st with
              pendingDeletions := (processDeletions st.disk st.pendingDeletions).2 } := by
            have := congrArg Prod.fst h
            simpa using this.symm
          subst h1
          exact ⟨rfl, rfl, rfl, rfl, processDeletions_snd _ _⟩
    | ok =>
      cases hsq : applyMySquadUpdates (processDeletions st.disk st.pendingDeletions).1
          st.mySquadUpdates with
      | error e =>
        constructor <;> intro h <;> simp only [hsq] at h
        · simp at h
        · have h1 : st' = { st with
              pendingDeletions := (processDeletions st.disk st.pendingDeletions).2 } := by
            have := congrArg Prod.fst h
            simpa using this.symm
          subst h1
          exact ⟨rfl, rfl, rfl, rfl, processDeletions_snd _ _⟩
      | ok wb2 =>
        constructor <;> intro h <;> simp only [hsq] at h
        · have h1 : st' = { st with
              disk := applySlipUpdates wb2 st.slipUpdates
              sheetsData := load (applySlipUpdates wb2 st.slipUpdates)
              pendingDeletions := []
              mySquadUpdates := []
              slipUpdates := [] } := by
            have := congrArg Prod.fst h
            simpa using this.symm
          subst h1
          exact ⟨rfl, rfl, rfl⟩
        · simp at h

theorem cols_foldl_bind (sn : String) (df : DataFrame) (q : String)
    (cols : List Column) (acc : List PMatch) :
    cols.foldl (fun ms c => if c.isObject then ms ++ colMatches sn df q c else ms) acc
      = acc ++ cols.flatMap (fun c => if c.isObject then colMatches sn df q c else []) := by
  induction cols generalizing acc with
  | nil => simp
  | cons c rest ih =>
    simp only [List.foldl_cons, List.flatMap_cons]
    by_cases hc : c.isObject
    · rw [if_pos hc, if_pos hc, ih, List.append_assoc]
    · rw [if_neg hc, if_neg hc, ih, List.nil_append]

theorem search_eq_bind (sheets : SheetsData) (q0 : String) :
    search_player_by_last_name sheets q0
      = sheets.flatMap (fun e =>
          if dfRowCount e.2 = 0 then []
          else e.2.flatMap (fun c =>
            if c.isObject then colMatches e.1 e.2 (pyStrip (pyLower q0)) c else [])) := by
  unfold search_player_by_last_name
  suffices h : ∀ (l : SheetsData) (acc : List PMatch),
      l.foldl (fun ms e =>
        if dfRowCount e.2 = 0 then ms
        else e.2.foldl
          (fun ms c => if c.isObject then ms ++ colMatches e.1 e.2 (pyStrip (pyLower q0)) c
            else ms) ms) acc
      = acc ++ l.flatMap (fun e =>
          if dfRowCount e.2 = 0 then []
          else e.2.flatMap (fun c =>
            if c.isObject then colMatches e.1 e.2 (pyStrip (pyLower q0)) c else [])) by
    simpa using h sheets []
  intro l
  induction l with
  | nil => simp
  | cons e rest ih =>
    intro acc
    simp only [List.foldl_cons, List.flatMap_cons]
    by_cases he : dfRowCount e.2 = 0
    · rw [if_pos he, if_pos he, ih, List.nil_append]
    · rw [if_neg he, if_neg he, cols_foldl_bind, ih, List.append_assoc]

theorem strContains_empty (s : String) : strContains s "" = true := by
  show subOccurs ("" : String).data s.data = true
  rw [show ("" : String).data = [] from rfl]
  cases s.data with
  | nil => rfl
  | cons c t => simp [subOccurs, leadMatch]

theorem colMatches_empty_query (sn : String) (df : DataFrame) (c : Column) :
    colMatches sn df "" c
      = c.values.enum.map (fun p =>
          { sheet := sn, index := p.1, rowData := rowData df p.1,
            matchingColumn := c.name }) := by
  unfold colMatches
  have h : (fun p : Nat × CellValue => strContains (pyLower (pandasStr p.2)) "")
      = fun _ => true := by
    funext p
    exact strContains_empty _
  rw [h, List.filter_true]

theorem compute_for_category_reduce_some (df : DataFrame) (c : Column) (s : Int)
    (top : Int) (rest : List Int)
    (h0 : ¬(dfRowCount df = 0))
    (hcol : findPointsCol df = some c)
    (hsorted : sortedPointsDesc c = top :: rest) :
    compute_for_category df (some s)
      = if 0 < s ∧ s < ((top :: rest).length : Int) then
          ⟨toString top, toString (((top :: rest).get? s.toNat).getD 0),
            toString (top - ((top :: rest).get? s.toNat).getD 0)⟩
        else ⟨toString top, "N/A", "N/A"⟩ := by
  simp only [compute_for_category, if_neg h0, hcol, hsorted]

theorem compute_for_category_reduce_none (df : DataFrame) (c : Column)
    (top : Int) (rest : List Int)
    (h0 : ¬(dfRowCount df = 0))
    (hcol : findPointsCol df = some c)
    (hsorted : sortedPointsDesc c = top :: rest) :
    compute_for_category df none = ⟨toString top, "N/A", "N/A"⟩ := by
  simp only [compute_for_category, if_neg h0, hcol, hsorted]

/-! ### Claim theorems -/

/-- Claim C1: for every table with pending deletions, the flush deletes the
marked persisted row positions in strictly descending order, one at a time:
whatever the order `marked` in which a set of positions was marked, the
per-sheet deletion pass of `save_spreadsheet` yields exactly the result of
deleting the positions from largest to smallest (`d` is that set listed in
strictly descending order). -/
theorem c1_deletion_descending_order (ws : Sheet) (marked d : List Nat)
    (hperm : marked.Perm d) (hsorted : d.Sorted (· > ·)) :
    applySheetDeletions ws marked = d.foldl deleteRowAt ws := by
  unfold applySheetDeletions
  rw [sortDesc_eq_of_perm_of_sorted hperm hsorted]

theorem c1_deletion_descending_order_witness :
    ([2, 5, 3] : List Nat).Perm [5, 3, 2] ∧
    ([5, 3, 2] : List Nat).Sorted (· > ·) ∧
    applySheetDeletions
        [[.str "hd"], [.str "a"], [.str "b"], [.str "c"], [.str "e"]] [2, 5, 3]
      = List.foldl deleteRowAt
          [[.str "hd"], [.str "a"], [.str "b"], [.str "c"], [.str "e"]] [5, 3, 2] :=
  ⟨by decide, by decide,
    c1_deletion_descending_order _ [2, 5, 3] [5, 3, 2] (by decide) (by decide)⟩

/-- Claim C3 counterexample: marking the one search hit of table "QBs"
(row identity 0, persisted position 2) twice records the position twice
(list, not set, semantics), and the flush then performs two deletions:
of the three data rows only "c" survives, whereas a single deletion at
position 2 would have kept "b" and "c". -/
theorem c3_double_mark_counterexample :
    (remove_player_rows
        ⟨[("QBs", [[.str "hd"], [.str "a"], [.str "b"], [.str "c"]])], [], [], [], []⟩
        [⟨"QBs", 0⟩] [0, 0]).1.pendingDeletions = [("QBs", [2, 2])] ∧
    (save_spreadsheet (fun _ => [])
        ⟨[("QBs", [[.str "hd"], [.str "a"], [.str "b"], [.str "c"]])], [],
          [("QBs", [2, 2])], [], []⟩ .ok).1.disk
      = [("QBs", [[.str "hd"], [.str "c"]])] ∧
    deleteRowAt [[.str "hd"], [.str "a"], [.str "b"], [.str "c"]] 2
      = [[.str "hd"], [.str "b"], [.str "c"]] ∧
    [[CellValue.str "hd"], [CellValue.str "c"]]
      ≠ [[CellValue.str "hd"], [CellValue.str "b"], [CellValue.str "c"]] := by
  refine ⟨by decide, by decide, by decide, by decide⟩

/-- Claim C3 (amended): marking the same row identity of the same table twice
before a flush is not idempotent: the persisted position is appended twice to
the pending list, the call reports two marks, and the flush then deletes at
that position twice, removing one further row beyond the marked one. -/
theorem c3_double_mark_two_deletions (st : DraftState) (sel : List MatchSel)
    (i : Nat) (m : MatchSel) (h : sel.get? i = some m) :
    (remove_player_rows st sel [i, i]).1.pendingDeletions
      = assocAppend (assocAppend st.pendingDeletions m.sheet (m.index + 2))
          m.sheet (m.index + 2) ∧
    (remove_player_rows st sel [i, i]).2 = 2 ∧
    ∀ (ws : Sheet) (p : Nat),
      applySheetDeletions ws [p, p] = deleteRowAt (deleteRowAt ws p) p := by
  simp only [List.get?_eq_getElem?] at h
  refine ⟨?_, ?_, ?_⟩
  · simp [remove_player_rows, h]
  · simp [remove_player_rows, h]
  · intro ws p
    have hs : sortDesc [p, p] = [p, p] := by
      simp [sortDesc, List.insertionSort, List.orderedInsert]
    simp [applySheetDeletions, hs]

theorem c3_double_mark_two_deletions_witness :
    ([⟨"QBs", 0⟩] : List MatchSel).get? 0 = some ⟨"QBs", 0⟩ ∧
    ((remove_player_rows ⟨[], [], [], [], []⟩ [⟨"QBs", 0⟩] [0, 0]).1.pendingDeletions
        = assocAppend (assocAppend [] "QBs" 2) "QBs" 2 ∧
      (remove_player_rows ⟨[], [], [], [], []⟩ [⟨"QBs", 0⟩] [0, 0]).2 = 2 ∧
      ∀ (ws : Sheet) (p : Nat),
        applySheetDeletions ws [p, p] = deleteRowAt (deleteRowAt ws p) p) :=
  ⟨by decide, c3_double_mark_two_deletions ⟨[], [], [], [], []⟩ [⟨"QBs", 0⟩] 0
    ⟨"QBs", 0⟩ (by decide)⟩

/-- Claim C5 counterexample: the search does not exclude the summary table.
In a snapshot whose only sheet is the "Decision Matrix" with a text column
containing "alpha", searching "alpha" returns a match from the Decision
Matrix instead of the empty sequence the claim demands. -/
theorem c5_search_summary_counterexample :
    search_player_by_last_name
        [("Decision Matrix", [⟨"Notes", true, [.str "alpha"]⟩])] "alpha"
      = [⟨"Decision Matrix", 0, [("Notes", .str "alpha")], "Notes"⟩] ∧
    ([⟨"Decision Matrix", 0, [("Notes", .str "alpha")], "Notes"⟩] : List PMatch)
      ≠ [] := by
  refine ⟨by decide, by decide⟩

/-- Claim C5 (amended): the search is a case-insensitive unanchored substring
match of the stripped, lower-cased query against every `object`-dtype column
of every table with at least one row — the summary table included — and the
match sequence is, deterministically, ordered by table (load order), then by
column within the table, then by original row order within the column, one
match per matching (column, row) pair. -/
theorem c5_search_scope_and_order (sheets : SheetsData) (q : String) :
    search_player_by_last_name sheets q
      = sheets.flatMap (fun e =>
          if dfRowCount e.2 = 0 then []
          else e.2.flatMap (fun c =>
            if c.isObject then colMatches e.1 e.2 (pyStrip (pyLower q)) c else [])) :=
  search_eq_bind sheets q

/-- Claim C6 counterexample: picking the one search hit that lives in a sheet
with no category mapping ("Decision Matrix") is not rejected — no error
exists in the code — and it does mutate the pending-edit set: the deletion
mark is recorded and the pick is counted; only the counter delta is skipped. -/
theorem c6_unmapped_pick_counterexample :
    (pick_player_for_team ⟨[("Decision Matrix", [[.str "x"]])], [], [], [], []⟩
        [⟨"Decision Matrix", 0⟩] [0]).1.pendingDeletions = [("Decision Matrix", [2])] ∧
    (pick_player_for_team ⟨[("Decision Matrix", [[.str "x"]])], [], [], [], []⟩
        [⟨"Decision Matrix", 0⟩] [0]).1.mySquadUpdates = [] ∧
    (pick_player_for_team ⟨[("Decision Matrix", [[.str "x"]])], [], [], [], []⟩
        [⟨"Decision Matrix", 0⟩] [0]).2 = 1 ∧
    ([("Decision Matrix", [2])] : List (String × List Nat)) ≠ [] := by
  refine ⟨by decide, by decide, by decide, by decide⟩

/-- Claim C6 (amended): recording a pick against a table outside the fixed
table-name to category mapping raises no error and still appends the
persisted position to that table's pending deletions; only the squad counter
delta is skipped, and the pick is counted as successful. -/
theorem c6_unmapped_pick_records_deletion (st : DraftState) (sel : List MatchSel)
    (i : Nat) (m : MatchSel) (h : sel.get? i = some m)
    (hm : positionMap m.sheet = none) :
    (pick_player_for_team st sel [i]).1.pendingDeletions
      = assocAppend st.pendingDeletions m.sheet (m.index + 2) ∧
    (pick_player_for_team st sel [i]).1.mySquadUpdates = st.mySquadUpdates ∧
    (pick_player_for_team st sel [i]).2 = 1 := by
  simp only [List.get?_eq_getElem?] at h
  refine ⟨?_, ?_, ?_⟩ <;> simp [pick_player_for_team, h, hm]

theorem c6_unmapped_pick_records_deletion_witness :
    ([⟨"Decision Matrix", 0⟩] : List MatchSel).get? 0 = some ⟨"Decision Matrix", 0⟩ ∧
    positionMap "Decision Matrix" = none ∧
    ((pick_player_for_team ⟨[], [], [], [], []⟩ [⟨"Decision Matrix", 0⟩] [0]).1.pendingDeletions
        = assocAppend [] "Decision Matrix" 2 ∧
      (pick_player_for_team ⟨[], [], [], [], []⟩
          [⟨"Decision Matrix", 0⟩] [0]).1.mySquadUpdates = [] ∧
      (pick_player_for_team ⟨[], [], [], [], []⟩ [⟨"Decision Matrix", 0⟩] [0]).2 = 1) :=
  ⟨by decide, by decide,
    c6_unmapped_pick_records_deletion ⟨[], [], [], [], []⟩ [⟨"Decision Matrix", 0⟩] 0
      ⟨"Decision Matrix", 0⟩ (by decide) (by decide)⟩

/-- Claim C9 counterexample: an empty query does not yield an empty sequence.
After lower-casing and stripping, the empty pattern is contained in every
string, so the search returns one match per row of every text column — here
the single row "Bob". -/
theorem c9_empty_query_counterexample :
    search_player_by_last_name [("QBs", [⟨"Name", true, [.str "Bob"]⟩])] ""
      = [⟨"QBs", 0, [("Name", .str "Bob")], "Name"⟩] ∧
    ([⟨"QBs", 0, [("Name", .str "Bob")], "Name"⟩] : List PMatch) ≠ [] := by
  refine ⟨by decide, by decide⟩

/-- Claim C9 (amended): search never raises (it is a total function of the
snapshot); with no tables it returns the empty sequence for every query, but
an empty query matches every row of every `object`-dtype column of every
non-empty table, returning one match per (column, row) pair rather than the
empty sequence. -/
theorem c9_empty_query_behaviour :
    (∀ q : String, search_player_by_last_name [] q = []) ∧
    (∀ sheets : SheetsData, search_player_by_last_name sheets ""
        = sheets.flatMap (fun e =>
            if dfRowCount e.2 = 0 then []
            else e.2.flatMap (fun c =>
              if c.isObject then
                c.values.enum.map (fun p =>
                  { sheet := e.1, index := p.1, rowData := rowData e.2 p.1,
                    matchingColumn := c.name })
              else []))) := by
  constructor
  · intro q
    rfl
  · intro sheets
    rw [search_eq_bind, show pyStrip (pyLower "") = "" from rfl]
    congr 1
    funext e
    split
    · rfl
    · congr 1
      funext c
      split
      · exact colMatches_empty_query _ _ _
      · rfl

/-- Claim C10: when all three pending-edit maps are empty, `save_spreadsheet`
is a complete no-op: it returns with "No changes to save" before opening the
workbook, independently of any I/O outcome, leaving the on-disk workbook and
the in-memory snapshot untouched. -/
theorem c10_flush_noop (load : Workbook → SheetsData) (st : DraftState)
    (io : IOOutcome) (h1 : st.pendingDeletions = []) (h2 : st.mySquadUpdates = [])
    (h3 : st.slipUpdates = []) :
    save_spreadsheet load st io = (st, .noChanges) := by
  simp [save_spreadsheet, h1, h2, h3]

theorem c10_flush_noop_witness :
    (⟨[("QBs", [[.str "hd"]])], [("QBs", [])], [], [], []⟩ : DraftState).pendingDeletions = [] ∧
    save_spreadsheet (fun _ => [])
        ⟨[("QBs", [[.str "hd"]])], [("QBs", [])], [], [], []⟩ .loadFail
      = (⟨[("QBs", [[.str "hd"]])], [("QBs", [])], [], [], []⟩, .noChanges) :=
  ⟨rfl, c10_flush_noop (fun _ => []) ⟨[("QBs", [[.str "hd"]])], [("QBs", [])], [], [], []⟩
    .loadFail rfl rfl rfl⟩

/-- Claim C7 counterexample: a "my squad" cell reading "abc/10" with a pending
delta of +2 is not treated as picked count 0 — `int("abc")` raises, the whole
flush is aborted by the exception handler, the workbook is never saved (the
cell still reads "abc/10") and the delta is retained, contradicting
"logged as a warning rather than failing the flush". -/
theorem c7_unparseable_counter_counterexample :
    save_spreadsheet (fun _ => [])
        ⟨[("Decision Matrix", [[.str "My squad", .str "abc/10"]])], [], [],
          [("QB", 2)], []⟩ .ok
      = (⟨[("Decision Matrix", [[.str "My squad", .str "abc/10"]])], [], [],
          [("QB", 2)], []⟩, .failed) ∧
    (FlushOutcome.failed ≠ FlushOutcome.saved) := by
  refine ⟨by decide, by decide⟩

/-- Claim C7 (amended): during a flush, a falsy (empty) "my squad" cell is
read as "0/0", so the delta `d` produces "d/0" — the original limit is not
recoverable from an empty cell; a non-empty cell without a "/" is skipped
silently and left unchanged; a cell with exactly one "/" whose left side does
not parse as an integer raises, which aborts the whole flush: the exception
handler leaves the on-disk workbook untouched and reports failure, keeping
the pending edits. -/
theorem c7_counter_parse_behaviour :
    (∀ d : Int, updateSquadCell .empty d = .ok (some (.str (toString d ++ "/" ++ "0")))) ∧
    (∀ (s : String) (d : Int), s ≠ "" → ('/' : Char) ∉ s.data →
      updateSquadCell (.str s) d = .ok none) ∧
    (∀ (X Y : String) (d : Int), ('/' : Char) ∉ X.data → ('/' : Char) ∉ Y.data →
      pyInt? X = none → updateSquadCell (.str (X ++ "/" ++ Y)) d = .error ()) ∧
    (∀ (load : Workbook → SheetsData) (st : DraftState),
      applyMySquadUpdates (processDeletions st.disk st.pendingDeletions).1
          st.mySquadUpdates = .error () →
      ¬((st.pendingDeletions.isEmpty && st.mySquadUpdates.isEmpty
          && st.slipUpdates.isEmpty) = true) →
      (save_spreadsheet load st .ok).1.disk = st.disk ∧
        (save_spreadsheet load st .ok).2 = .failed ∧
        (save_spreadsheet load st .ok).1.mySquadUpdates = st.mySquadUpdates) := by
  refine ⟨?_, ?_, ?_, ?_⟩
  · intro d
    have h : updateSquadCell .empty d
        = .ok (some (.str (toString (0 + d) ++ "/" ++ "0"))) := rfl
    rw [h, zero_add]
  · intro s d hne hns
    have hsplit : pySplit '/' s = [s] := by
      rw [pySplit, splitCharList_no_sep hns]
      simp [String_mk_data]
    have htr : cellTruthy (.str s) = true := by simp [cellTruthy, hne]
    simp only [updateSquadCell, htr, if_pos, pyStr, hsplit]
  · intro X Y d hXs hYs hX
    have hne : (X ++ "/" ++ Y) ≠ "" := by
      intro h
      have := congrArg String.data h
      rw [String_data_append, String_data_append] at this
      simp at this
    have htr : cellTruthy (.str (X ++ "/" ++ Y)) = true := by simp [cellTruthy, hne]
    simp only [updateSquadCell, htr, if_pos, pyStr, pySplit_two hXs hYs, hX]
  · intro load st herr hcond
    unfold save_spreadsheet
    rw [if_neg hcond]
    simp only [herr]
    simp

theorem c7_counter_parse_behaviour_witness :
    updateSquadCell .empty 3 = .ok (some (.str (toString (3 : Int) ++ "/" ++ "0"))) ∧
    updateSquadCell (.str "abc") 1 = .ok none ∧
    updateSquadCell (.str ("ab" ++ "/" ++ "10")) 1 = .error () ∧
    ((save_spreadsheet (fun _ => [])
        ⟨[("Decision Matrix", [[.str "My squad", .str "zz/9"]])], [], [],
          [("QB", 1)], []⟩ .ok).1.disk
      = (⟨[("Decision Matrix", [[.str "My squad", .str "zz/9"]])], [], [],
          [("QB", 1)], []⟩ : DraftState).disk ∧
    (save_spreadsheet (fun _ => [])
        ⟨[("Decision Matrix", [[.str "My squad", .str "zz/9"]])], [], [],
          [("QB", 1)], []⟩ .ok).2 = .failed ∧
    (save_spreadsheet (fun _ => [])
        ⟨[("Decision Matrix", [[.str "My squad", .str "zz/9"]])], [], [],
          [("QB", 1)], []⟩ .ok).1.mySquadUpdates
      = (⟨[("Decision Matrix", [[.str "My squad", .str "zz/9"]])], [], [],
          [("QB", 1)], []⟩ : DraftState).mySquadUpdates) :=
  ⟨c7_counter_parse_behaviour.1 3,
    c7_counter_parse_behaviour.2.1 "abc" 1 (by decide) (by decide),
    c7_counter_parse_behaviour.2.2.1 "ab" "10" 1 (by decide) (by decide) (by decide),
    c7_counter_parse_behaviour.2.2.2 (fun _ => [])
      ⟨[("Decision Matrix", [[.str "My squad", .str "zz/9"]])], [], [], [("QB", 1)], []⟩
      rfl (by decide)⟩

/-- Claim C8 counterexample: with a detected value column holding one row of
value 5 and a slip (threshold rank) of 0, the row at rank 0 exists, so the
claim demands thresholdValue "5" and diff "0"; the code instead requires
`slip_value > 0` and produces "N/A" for both. -/
theorem c8_threshold_rank_zero_counterexample :
    compute_for_category [⟨"Points", false, [.num 5]⟩] (some 0)
      = ⟨"5", "N/A", "N/A"⟩ ∧
    (⟨"5", "N/A", "N/A"⟩ : StatsCells) ≠ ⟨"5", "5", "0"⟩ := by
  refine ⟨by decide, by decide⟩

/-- Claim C8 (amended): for a category table with at least one row and a
detected value column, the computation drops missing values and sorts the
rest descending (the considered list is a descending-sorted permutation of
the non-missing values); `topPlayer` is the value at rank 0; `lowerPlayer`
and `diff` are the value at rank `s` and the difference — but only when the
threshold rank `s` is strictly positive and that rank exists; a rank of 0, a
missing rank, or a missing slip value yields "N/A". -/
theorem c8_derived_stats (df : DataFrame) (c : Column) (s top : Int)
    (rest : List Int)
    (h0 : ¬(dfRowCount df = 0))
    (hcol : findPointsCol df = some c)
    (hsorted : sortedPointsDesc c = top :: rest) :
    (top :: rest).Sorted (· ≥ ·) ∧
    (top :: rest).Perm (c.values.filterMap cellNum?) ∧
    (compute_for_category df (some s)).topPlayer = toString top ∧
    (0 < s → s < ((top :: rest).length : Int) →
      ∃ lower, (top :: rest).get? s.toNat = some lower ∧
        compute_for_category df (some s)
          = ⟨toString top, toString lower, toString (top - lower)⟩) ∧
    ((s ≤ 0 ∨ ((top :: rest).length : Int) ≤ s) →
      compute_for_category df (some s) = ⟨toString top, "N/A", "N/A"⟩) ∧
    compute_for_category df none = ⟨toString top, "N/A", "N/A"⟩ := by
  have hred := fun s => compute_for_category_reduce_some df c s top rest h0 hcol hsorted
  refine ⟨?_, ?_, ?_, ?_, ?_, ?_⟩
  · have := List.sorted_insertionSort (· ≥ ·) (c.values.filterMap cellNum?)
    rw [show List.insertionSort (· ≥ ·) (c.values.filterMap cellNum?)
      = sortedPointsDesc c from rfl, hsorted] at this
    exact this
  · have := List.perm_insertionSort (· ≥ ·) (c.values.filterMap cellNum?)
    rw [show List.insertionSort (· ≥ ·) (c.values.filterMap cellNum?)
      = sortedPointsDesc c from rfl, hsorted] at this
    exact this
  · rw [hred s]
    split
    · rfl
    · rfl
  · intro h1 h2
    have hlt : s.toNat < (top :: rest).length := by omega
    obtain ⟨lower, hl⟩ : ∃ x, (top :: rest).get? s.toNat = some x := by
      simp only [List.get?_eq_getElem?]
      exact ⟨(top :: rest)[s.toNat], List.getElem?_eq_getElem hlt⟩
    refine ⟨lower, hl, ?_⟩
    rw [hred s, if_pos ⟨h1, h2⟩, hl]
    rfl
  · intro h
    rw [hred s, if_neg ?_]
    intro hcontra
    rcases h with h | h <;> omega
  · exact compute_for_category_reduce_none df c top rest h0 hcol hsorted

theorem c8_derived_stats_witness :
    ¬(dfRowCount [⟨"Points", false, [.num 7, .num 3, .num 7]⟩] = 0) ∧
    findPointsCol [⟨"Points", false, [.num 7, .num 3, .num 7]⟩]
      = some ⟨"Points", false, [.num 7, .num 3, .num 7]⟩ ∧
    sortedPointsDesc ⟨"Points", false, [.num 7, .num 3, .num 7]⟩ = [7, 7, 3] ∧
    (([7, 7, 3] : List Int).Sorted (· ≥ ·) ∧
      ([7, 7, 3] : List Int).Perm
        ((⟨"Points", false, [.num 7, .num 3, .num 7]⟩ : Column).values.filterMap cellNum?) ∧
      (compute_for_category [⟨"Points", false, [.num 7, .num 3, .num 7]⟩]
          (some 2)).topPlayer = toString (7 : Int) ∧
      (0 < (2 : Int) → (2 : Int) < (([7, 7, 3] : List Int).length : Int) →
        ∃ lower, ([7, 7, 3] : List Int).get? (2 : Int).toNat = some lower ∧
          compute_for_category [⟨"Points", false, [.num 7, .num 3, .num 7]⟩] (some 2)
            = ⟨toString (7 : Int), toString lower, toString (7 - lower)⟩) ∧
      (((2 : Int) ≤ 0 ∨ (([7, 7, 3] : List Int).length : Int) ≤ 2) →
        compute_for_category [⟨"Points", false, [.num 7, .num 3, .num 7]⟩] (some 2)
          = ⟨toString (7 : Int), "N/A", "N/A"⟩) ∧
      compute_for_category [⟨"Points", false, [.num 7, .num 3, .num 7]⟩] none
        = ⟨toString (7 : Int), "N/A", "N/A"⟩) :=
  ⟨by decide, by decide, by decide,
    c8_derived_stats [⟨"Points", false, [.num 7, .num 3, .num 7]⟩]
      ⟨"Points", false, [.num 7, .num 3, .num 7]⟩ 2 7 [7, 3]
      (by decide) (by decide) (by decide)⟩

/-- Claim C2 counterexample: a flush that fails before the persist step does
not leave the pending-edit set textually intact.  Here the counter cell
"abc/10" makes the flush abort before saving — the disk and the delta map are
untouched — but the deletion list of "QBs", marked as [2, 5], has been sorted
in place to [5, 2], so the state is not exactly as it was before the attempt. -/
theorem c2_retain_counterexample :
    save_spreadsheet (fun _ => [])
        ⟨[("QBs", [[], [], [], [], [], []]),
          ("Decision Matrix", [[.str "My squad", .str "abc/10"]])], [],
          [("QBs", [2, 5])], [("QB", 1)], []⟩ .ok
      = (⟨[("QBs", [[], [], [], [], [], []]),
          ("Decision Matrix", [[.str "My squad", .str "abc/10"]])], [],
          [("QBs", [5, 2])], [("QB", 1)], []⟩, .failed) ∧
    ([("QBs", [5, 2])] : List (String × List Nat)) ≠ [("QBs", [2, 5])] := by
  refine ⟨by decide, by decide⟩

theorem c2_clear_or_retain_witness :
    (save_spreadsheet (fun _ => []) ⟨[("QBs", [[], []])], [], [("QBs", [2])], [], []⟩ .ok
        = (⟨[("QBs", [[]])], [], [], [], []⟩, .saved)) ∧
    ((⟨[("QBs", [[]])], [], [], [], []⟩ : DraftState).pendingDeletions = [] ∧
      (⟨[("QBs", [[]])], [], [], [], []⟩ : DraftState).mySquadUpdates = [] ∧
      (⟨[("QBs", [[]])], [], [], [], []⟩ : DraftState).slipUpdates = []) ∧
    (save_spreadsheet (fun _ => [])
        ⟨[("QBs", [[], [], []])], [], [("QBs", [2, 3])], [], []⟩ .saveFail
      = (⟨[("QBs", [[], [], []])], [], [("QBs", [3, 2])], [], []⟩, .failed)) ∧
    ((⟨[("QBs", [[], [], []])], [], [("QBs", [3, 2])], [], []⟩ : DraftState).disk
        = (⟨[("QBs", [[], [], []])], [], [("QBs", [2, 3])], [], []⟩ : DraftState).disk ∧
      (⟨[("QBs", [[], [], []])], [], [("QBs", [3, 2])], [], []⟩ : DraftState).sheetsData
        = (⟨[("QBs", [[], [], []])], [], [("QBs", [2, 3])], [], []⟩ : DraftState).sheetsData ∧
      (⟨[("QBs", [[], [], []])], [], [("QBs", [3, 2])], [], []⟩ : DraftState).mySquadUpdates
        = (⟨[("QBs", [[], [], []])], [], [("QBs", [2, 3])], [], []⟩ : DraftState).mySquadUpdates ∧
      (⟨[("QBs", [[], [], []])], [], [("QBs", [3, 2])], [], []⟩ : DraftState).slipUpdates
        = (⟨[("QBs", [[], [], []])], [], [("QBs", [2, 3])], [], []⟩ : DraftState).slipUpdates ∧
      List.Forall₂ (fun a b => a.1 = b.1 ∧ a.2.Perm b.2)
        (⟨[("QBs", [[], [], []])], [], [("QBs", [3, 2])], [], []⟩ : DraftState).pendingDeletions
        (⟨[("QBs", [[], [], []])], [], [("QBs", [2, 3])], [], []⟩ : DraftState).pendingDeletions) :=
  ⟨by decide,
    (flush_clear_or_retain (fun _ => []) ⟨[("QBs", [[], []])], [], [("QBs", [2])], [], []⟩
      ⟨[("QBs", [[]])], [], [], [], []⟩ .ok).1 (by decide),
    by decide,
    (flush_clear_or_retain (fun _ => [])
      ⟨[("QBs", [[], [], []])], [], [("QBs", [2, 3])], [], []⟩
      ⟨[("QBs", [[], [], []])], [], [("QBs", [3, 2])], [], []⟩ .saveFail).2 (by decide)⟩

theorem c4_counter_round_trip_witness :
    lookupSheet
        (⟨[("Decision Matrix", [[.str "My squad", .str "3/10"]])], [], [],
          [("QB", 2)], []⟩ : DraftState).disk "Decision Matrix"
      = some [[.str "My squad", .str "3/10"]] ∧
    findLabelRow [[.str "My squad", .str "3/10"]] "my squad" = some 1 ∧
    posToCol "QB" = some 2 ∧
    getCell [[.str "My squad", .str "3/10"]] 1 2 = .str ("3" ++ "/" ++ "10") ∧
    pyInt? "3" = some 3 ∧
    save_spreadsheet (fun _ => [])
        ⟨[("Decision Matrix", [[.str "My squad", .str "3/10"]])], [], [],
          [("QB", 2)], []⟩ .ok
      = (⟨[("Decision Matrix", [[.str "My squad", .str "5/10"]])], [], [], [], []⟩,
          .saved) ∧
    (∃ ws', lookupSheet
        (⟨[("Decision Matrix", [[.str "My squad", .str "5/10"]])], [], [], [],
          []⟩ : DraftState).disk "Decision Matrix" = some ws' ∧
      getCell ws' 1 2 = .str (toString ((3 : Int) + 2) ++ "/" ++ "10")) :=
  ⟨by decide, by decide, by decide, by decide, by decide, by decide,
    counter_round_trip (fun _ => [])
      ⟨[("Decision Matrix", [[.str "My squad", .str "3/10"]])], [], [], [("QB", 2)], []⟩
      ⟨[("Decision Matrix", [[.str "My squad", .str "5/10"]])], [], [], [], []⟩
      .ok [[.str "My squad", .str "3/10"]] 1 2 "QB" "3" "10" 2 3
      (by decide) (by decide) (by decide) (by decide) (by decide) (by decide)
      (by decide) (by decide) (by decide) (by decide) (by decide)⟩
